import Mathlib

/-!
Shallow embedding of the `httpmock` Go package and proofs about it.

The package has two parts relevant here:
* `runCancelable` (responder-vs-cancellation race over buffered channels);
* response builders and canned body streams (`NewStringResponse`,
  `NewJsonResponse`, `NewXmlResponse`, `dummyReadCloser`, `SlowReader`).

Go byte strings are modelled as `List UInt8`; `time.Duration` values as
nanosecond counts (`Nat`); channels as explicit buffered-channel traces.
-/

namespace Httpmock

/-- Bytes of a Go `string` or `[]byte` value. -/
abbrev Bytes := List UInt8

/-- The only I/O error the readers in this package produce: `io.EOF`. -/
inductive IOErr
  | eof
deriving DecidableEq

/-- `strings.Reader` / `bytes.Reader`: an in-memory `io.ReadSeeker` over
`data` with current offset `pos`. -/
structure stringsReader where
  data : Bytes
  pos : Nat
deriving DecidableEq

/-- `strings.Reader.Read`: return `io.EOF` when the offset is at or past the
end; otherwise copy up to `plen` bytes (the caller's buffer length) starting
at the offset and advance it. Returns (bytes read, error, updated reader). -/
def stringsReader.Read (r : stringsReader) (plen : Nat) :
    Bytes × Option IOErr × stringsReader :=
  if r.data.length ≤ r.pos then ([], some .eof, r)
  else
    let out := (r.data.drop r.pos).take plen
    (out, none, ⟨r.data, r.pos + out.length⟩)

/-- `strings.Reader.Seek`: compute the absolute offset from `whence`
(0 = start, 1 = current, 2 = end); a negative target is an error (reader
unchanged, 0 returned), otherwise the offset is set. -/
def stringsReader.Seek (r : stringsReader) (offset : Int) (whence : Nat) :
    Int × stringsReader :=
  let a : Int :=
    if whence = 0 then offset
    else if whence = 1 then (r.pos : Int) + offset
    else (r.data.length : Int) + offset
  if a < 0 then (0, r) else (a, ⟨r.data, a.toNat⟩)

/-- `SlowReader`: paces reads by sleeping `delay` nanoseconds per `Read` call
and reading into `p[:1]`, a one-byte slice of the caller's buffer. The only
reader it wraps in this package is a `strings.Reader`. -/
structure SlowReader where
  delay : Nat
  r : stringsReader
deriving DecidableEq

/-- `SlowReader.Read`: sleep `sr.delay`, then `sr.r.Read(p[:1])`. For a
non-empty caller buffer (`plen ≥ 1`) the slice `p[:1]` has length exactly one,
modelled as reading with buffer length `min plen 1`. The final component is
the nanoseconds slept by this call. -/
def SlowReader.Read (sr : SlowReader) (plen : Nat) :
    Bytes × Option IOErr × SlowReader × Nat :=
  let (out, e, r2) := sr.r.Read (min plen 1)
  (out, e, ⟨sr.delay, r2⟩, sr.delay)

/-- `SlowReader.Seek` delegates to the wrapped reader. -/
def SlowReader.Seek (sr : SlowReader) (offset : Int) (whence : Nat) :
    Int × SlowReader :=
  let (n, r2) := sr.r.Seek offset whence
  (n, ⟨sr.delay, r2⟩)

/-- The `io.ReadSeeker` values that occur as bodies in this package: a plain
in-memory reader (`strings.Reader` / `bytes.Reader`) or a `SlowReader`. -/
inductive ReadSeeker
  | strs (r : stringsReader)
  | slow (sr : SlowReader)
deriving DecidableEq

/-- Dispatch `Read` over the two reader kinds; the final component is the
nanoseconds slept (0 for the plain reader). -/
def ReadSeeker.Read : ReadSeeker → Nat → Bytes × Option IOErr × ReadSeeker × Nat
  | .strs r, plen =>
      let (out, e, r2) := r.Read plen
      (out, e, .strs r2, 0)
  | .slow sr, plen =>
      let (out, e, sr2, t) := sr.Read plen
      (out, e, .slow sr2, t)

/-- Dispatch `Seek` over the two reader kinds. -/
def ReadSeeker.Seek : ReadSeeker → Int → Nat → Int × ReadSeeker
  | .strs r, off, wh =>
      let (n, r2) := r.Seek off wh
      (n, .strs r2)
  | .slow sr, off, wh =>
      let (n, sr2) := sr.Seek off wh
      (n, .slow sr2)

/-- `dummyReadCloser`: wraps an `io.ReadSeeker` as an `io.ReadCloser`. -/
structure dummyReadCloser where
  body : ReadSeeker
deriving DecidableEq

/-- `dummyReadCloser.Read`: delegate to the wrapped reader; when it reports
`io.EOF`, rewind it with `Seek(0, 0)` while still returning the `io.EOF` to
the caller. -/
def dummyReadCloser.Read (d : dummyReadCloser) (plen : Nat) :
    Bytes × Option IOErr × dummyReadCloser × Nat :=
  let (out, e, b2, t) := d.body.Read plen
  if e = some IOErr.eof then (out, e, ⟨(b2.Seek 0 0).2⟩, t)
  else (out, e, ⟨b2⟩, t)

/-- `dummyReadCloser.Close` always succeeds. -/
def dummyReadCloser.Close (_ : dummyReadCloser) : Option IOErr := none

/-- Single-valued header map (`http.Header` as used in this package, where
each key is set at most once via `Header.Set`). -/
abbrev Header := List (String × String)

/-- `http.Header.Set`: replace any previous value for the key. -/
def headerSet (h : Header) (k v : String) : Header :=
  (k, v) :: h.filter (fun p => p.1 != k)

/-- Look up a header value. -/
def headerGet (h : Header) (k : String) : Option String :=
  (h.find? (fun p => p.1 == k)).map (fun p => p.2)

/-- The fields of `*http.Response` this package sets. -/
structure Response where
  Status : String
  StatusCode : Int
  Body : dummyReadCloser
  Header : Header
deriving DecidableEq

/-- The request as seen by this package: only the cancellation channel
`req.Cancel` matters; `none` models a nil channel. -/
structure Request where
  Cancel : Option Unit
deriving DecidableEq

/-- Observable behavior of one responder invocation: return a
`(*http.Response, error)` pair, or panic with a (string) value. -/
inductive RespBehavior
  | returns (response : Option Response) (err : Option String)
  | panics (v : String)
deriving DecidableEq

/-- `Responder`: a function from the request to its observable behavior. -/
abbrev Responder := Request → RespBehavior

/-- `strconv.Itoa`. -/
def strconvItoa (n : Int) : String := toString n

/-- `ResponderFromResponse` wraps an `*http.Response` in a `Responder`. -/
def ResponderFromResponse (resp : Response) : Responder :=
  fun _ => .returns (some resp) none

/-- `NewRespBodyFromString` creates an `io.ReadCloser` from a string. -/
def NewRespBodyFromString (body : Bytes) : dummyReadCloser :=
  ⟨.strs ⟨body, 0⟩⟩

/-- `NewRespBodyFromBytes` creates an `io.ReadCloser` from a byte slice
(`bytes.Reader` behaves exactly as `strings.Reader` here). -/
def NewRespBodyFromBytes (body : Bytes) : dummyReadCloser :=
  ⟨.strs ⟨body, 0⟩⟩

/-- `NewStringResponse`: response with the given status and a string body. -/
def NewStringResponse (status : Int) (body : Bytes) : Response :=
  { Status := strconvItoa status
    StatusCode := status
    Body := NewRespBodyFromString body
    Header := [] }

/-- `NewStringResponder`. -/
def NewStringResponder (status : Int) (body : Bytes) : Responder :=
  ResponderFromResponse (NewStringResponse status body)

/-- `NewBytesResponse`: response with the given status and a byte body. -/
def NewBytesResponse (status : Int) (body : Bytes) : Response :=
  { Status := strconvItoa status
    StatusCode := status
    Body := NewRespBodyFromBytes body
    Header := [] }

/-- `NewBytesResponder`. -/
def NewBytesResponder (status : Int) (body : Bytes) : Responder :=
  ResponderFromResponse (NewBytesResponse status body)

/-- `NewJsonResponse`: `json.Marshal` is standard-library code external to
this package, so it is modelled as an arbitrary encoder `jsonMarshal` that
either fails with an error or yields encoded bytes. On failure the builder
returns `(nil, err)`; on success it builds a bytes response and sets the
`Content-Type` header to `application/json`. -/
def NewJsonResponse {α : Type} (jsonMarshal : α → Except String Bytes)
    (status : Int) (body : α) : Except String Response :=
  match jsonMarshal body with
  | .error err => .error err
  | .ok encoded =>
      let response := NewBytesResponse status encoded
      .ok { response with
              Header := headerSet response.Header "Content-Type" "application/json" }

/-- `NewJsonResponder`. -/
def NewJsonResponder {α : Type} (jsonMarshal : α → Except String Bytes)
    (status : Int) (body : α) : Except String Responder :=
  match NewJsonResponse jsonMarshal status body with
  | .error err => .error err
  | .ok resp => .ok (ResponderFromResponse resp)

/-- `NewXmlResponse`: same shape as `NewJsonResponse` with `xml.Marshal`
(modelled as the arbitrary encoder `xmlMarshal`) and `application/xml`. -/
def NewXmlResponse {α : Type} (xmlMarshal : α → Except String Bytes)
    (status : Int) (body : α) : Except String Response :=
  match xmlMarshal body with
  | .error err => .error err
  | .ok encoded =>
      let response := NewBytesResponse status encoded
      .ok { response with
              Header := headerSet response.Header "Content-Type" "application/xml" }

/-- `NewXmlResponder`. -/
def NewXmlResponder {α : Type} (xmlMarshal : α → Except String Bytes)
    (status : Int) (body : α) : Except String Responder :=
  match NewXmlResponse xmlMarshal status body with
  | .error err => .error err
  | .ok resp => .ok (ResponderFromResponse resp)

/-- `time.Second` in nanoseconds. -/
def timeSecond : Nat := 1000000000

/-- `NewSlowReader`: delay per read is `time.Second / bps` (integer division
of nanosecond durations). In this package it only wraps `strings.Reader`. -/
def NewSlowReader (r : stringsReader) (bps : Nat) : SlowReader :=
  ⟨timeSecond / bps, r⟩

/-- `NewSlowRespBodyFromString`: throttled body at the hard-coded rate of
4096 bytes per second. -/
def NewSlowRespBodyFromString (body : Bytes) : dummyReadCloser :=
  ⟨.slow (NewSlowReader ⟨body, 0⟩ 4096)⟩

/-- `NewSlowStringResponse`. -/
def NewSlowStringResponse (status : Int) (body : Bytes) : Response :=
  { Status := strconvItoa status
    StatusCode := status
    Body := NewSlowRespBodyFromString body
    Header := [] }

/-- `NewSlowStringResponder`: the source accepts a `delay` parameter but
never uses it. -/
def NewSlowStringResponder (delay : Nat) (status : Int) (body : Bytes) :
    Responder :=
  ResponderFromResponse (NewSlowStringResponse status body)

/-- Lowercase hexadecimal digit for `n < 16`. -/
def hexDigit (n : Nat) : Char :=
  if n < 10 then Char.ofNat ('0'.toNat + n)
  else Char.ofNat ('a'.toNat + (n - 10))

/-- Quote one character the way Go's `%q` verb (`strconv.Quote`) renders a
character of an ASCII string: the double quote and the backslash are
backslash-escaped; the printable ASCII characters 0x20–0x7e pass through
unchanged; the control characters with named escapes become `\a`, `\b`,
`\f`, `\n`, `\r`, `\t`, `\v`; every other character below 0x20, and 0x7f,
becomes a two-digit lowercase `\x` escape. Characters above 0x7f, for which
Go consults the Unicode printability tables, are outside the modelled
domain and pass through raw; theorems about the quoted message therefore
quantify only over ASCII strings. -/
def goQuoteChar (c : Char) : List Char :=
  if c = '"' then ['\\', '"']
  else if c = '\\' then ['\\', '\\']
  else if c.toNat = 7 then ['\\', 'a']
  else if c.toNat = 8 then ['\\', 'b']
  else if c.toNat = 12 then ['\\', 'f']
  else if c = '\n' then ['\\', 'n']
  else if c = '\r' then ['\\', 'r']
  else if c = '\t' then ['\\', 't']
  else if c.toNat = 11 then ['\\', 'v']
  else if c.toNat < 32 ∨ c.toNat = 127 then
    ['\\', 'x', hexDigit (c.toNat / 16), hexDigit (c.toNat % 16)]
  else [c]

/-- Go's `%q` verb on a string: a double-quoted Go string literal
(faithful for ASCII strings, see `goQuoteChar`). -/
def goQuote (s : String) : String :=
  ⟨'"' :: (s.data.flatMap goQuoteChar ++ ['"'])⟩

/-- The anonymous `result` struct inside `runCancelable`. -/
structure result where
  response : Option Response
  err : Option String
deriving DecidableEq

/-- One operation on a buffered channel. -/
inductive ChanOp (α : Type)
  | send (a : α)
  | recv
deriving DecidableEq

/-- Predicate selecting receive operations. -/
def ChanOp.isRecv {α : Type} : ChanOp α → Bool
  | .recv => true
  | .send _ => false

/-- Predicate selecting send operations. -/
def ChanOp.isSend {α : Type} : ChanOp α → Bool
  | .recv => false
  | .send _ => true

/-- Execute channel operations, listed in completion order, on a buffered
channel of capacity `cap` with current buffer `buf` (Go semantics: a send
completes only when the buffer has space, a receive only when the buffer has
a value). Returns the final buffer and the received values in order, or
`none` if some operation blocks with no later operation able to unblock it. -/
def chanRun {α : Type} (cap : Nat) : List α → List (ChanOp α) → Option (List α × List α)
  | buf, [] => some (buf, [])
  | buf, .send a :: ops =>
      if buf.length < cap then
        match chanRun cap (buf ++ [a]) ops with
        | some (b, r) => some (b, r)
        | none => none
      else none
  | buf, .recv :: ops =>
      match buf with
      | [] => none
      | x :: rest =>
          match chanRun cap rest ops with
          | some (b, r) => some (b, x :: r)
          | none => none

/-- The outcome the watcher goroutine writes when the cancellation signal
fires first (source lines 27–31). -/
def cancelResult : result :=
  ⟨none, some "request canceled"⟩

/-- The outcome the execution goroutine writes (source lines 36–51): the
responder's own pair, or, when the responder panics, the recovered pair
`(nil, fmt.Errorf("panic in responder: got %q", v))`. -/
def execResult : RespBehavior → result
  | .returns r e => ⟨r, e⟩
  | .panics v => ⟨none, some ("panic in responder: got " ++ goQuote v)⟩

/-- The possible completed interleavings of one cancelable invocation, i.e.
which goroutine's write reaches the result channel first and how the watcher
goroutine exits:
* `cancelWins`: the cancellation signal fires and the watcher's write is
  consumed; the executor's write lands later in the free buffer slot.
* `execWinsStandDown`: the executor's write is consumed and the watcher
  receives the stand-down signal and exits without writing.
* `execWinsCancelLate`: the executor's write is consumed but the cancellation
  signal fires and the watcher's select takes it, writing a losing result. -/
inductive Sched
  | cancelWins
  | execWinsStandDown
  | execWinsCancelLate
deriving DecidableEq

/-- Operations on the capacity-one `resultch` channel, in completion order,
for each interleaving: the winner's send, the invoker's single receive
(source line 53), and the loser's send when one occurs. A send attempted
while the buffer is full completes only after the receive, which is where it
appears in the completion order. -/
def resultchOps : Sched → result → result → List (ChanOp result)
  | .cancelWins, cres, eres => [.send cres, .recv, .send eres]
  | .execWinsStandDown, _, eres => [.send eres, .recv]
  | .execWinsCancelLate, cres, eres => [.send eres, .recv, .send cres]

/-- Operations on the capacity-one `done` channel: the invoker's
unconditional stand-down send (source line 57), received by the watcher only
in the interleaving where the watcher is still waiting and takes it. -/
def doneOps : Sched → List (ChanOp Unit)
  | .execWinsStandDown => [.send (), .recv]
  | _ => [.send ()]

/-- What a call to `runCancelable` does to its caller: return a
`(*http.Response, error)` pair, let a panic propagate, or block forever. -/
inductive ExecOutcome
  | ret (response : Option Response) (err : Option String)
  | panicked (v : String)
  | blocked
deriving DecidableEq

/-- `runCancelable`: with a nil `req.Cancel` the responder is invoked
synchronously and its result returned unmodified — in particular a panic
there is not recovered and propagates to the caller. Otherwise the watcher
and execution goroutines race to the capacity-one `resultch`; the invoker
receives the first value, sends the stand-down signal on `done`, and returns
the received pair. The channel behavior is evaluated on the completion
order given by the interleaving `sc`; if either channel's operations would
block forever the invocation blocks. -/
def runCancelable (responder : Responder) (req : Request) (sc : Sched) :
    ExecOutcome :=
  match req.Cancel with
  | none =>
      match responder req with
      | .returns r e => .ret r e
      | .panics v => .panicked v
  | some _ =>
      let eres := execResult (responder req)
      match chanRun 1 [] (resultchOps sc cancelResult eres),
            chanRun 1 [] (doneOps sc) with
      | some (_, r :: _), some _ => .ret r.response r.err
      | _, _ => .blocked

/-- The outcome consumed by the invoker: the first write to `resultch`. -/
def raceWinner (sc : Sched) (eres : result) : result :=
  match sc with
  | .cancelWins => cancelResult
  | .execWinsStandDown => eres
  | .execWinsCancelLate => eres

/-- Read loop in the style of `io/ioutil.ReadAll`: repeatedly `Read` with a
buffer of length `bufLen`, concatenating the bytes, until an error is
returned (for these bodies the only error is `io.EOF`, which ends a drain).
`fuel` bounds the number of reads. Returns the bytes and the final body. -/
def dummyReadCloser.readAll : Nat → dummyReadCloser → Nat → Bytes × dummyReadCloser
  | 0, d, _ => ([], d)
  | fuel + 1, d, bufLen =>
      let (out, e, d2, _) := d.Read bufLen
      match e with
      | some _ => (out, d2)
      | none =>
          let (rest, d3) := dummyReadCloser.readAll fuel d2 bufLen
          (out ++ rest, d3)

/-- `k` successive `Read` calls on a `SlowReader`, each with a caller buffer
of length `bufLen`: all bytes transferred, the final reader, and the total
nanoseconds slept. -/
def SlowReader.readN : Nat → SlowReader → Nat → Bytes × SlowReader × Nat
  | 0, sr, _ => ([], sr, 0)
  | k + 1, sr, bufLen =>
      let (out, _, sr2, t) := sr.Read bufLen
      let (rest, sr3, ts) := SlowReader.readN k sr2 bufLen
      (out ++ rest, sr3, t + ts)

/-- With a cancellation signal present, every completed interleaving returns
the race winner's pair: the channel trace never blocks, the invoker consumes
the first write. -/
theorem runCancelable_some (responder : Responder) (req : Request) (sc : Sched)
    (u : Unit) (hc : req.Cancel = some u) :
    runCancelable responder req sc
      = .ret (raceWinner sc (execResult (responder req))).response
          (raceWinner sc (execResult (responder req))).err := by
  cases sc <;>
    simp [runCancelable, hc, resultchOps, doneOps, chanRun, raceWinner]

/-- When the responder panics in a cancelable invocation and the execution
task's write wins the race, the deferred recover converts the fault and the
invoker receives the recovered `(nil, error)` pair. -/
theorem runCancelable_panic_caught (responder : Responder) (req : Request)
    (sc : Sched) (v : String) (u : Unit) (hc : req.Cancel = some u)
    (hv : responder req = .panics v) (hsc : sc ≠ .cancelWins) :
    runCancelable responder req sc
      = .ret none (some ("panic in responder: got " ++ goQuote v)) := by
  have h := runCancelable_some responder req sc u hc
  have hwin : raceWinner sc (execResult (responder req))
      = ⟨none, some ("panic in responder: got " ++ goQuote v)⟩ := by
    cases sc with
    | cancelWins => exact absurd rfl hsc
    | execWinsStandDown => rw [raceWinner, hv]; rfl
    | execWinsCancelLate => rw [raceWinner, hv]; rfl
  rw [h, hwin]

/-! ### Claim theorems -/

/-- C1: when the request carries a cancellation signal and the signal fires
before the responder's result reaches the result channel (the `cancelWins`
interleaving), the watcher's outcome wins the race and `runCancelable`
returns a nil response together with the error "request canceled". -/
theorem C1_cancel_wins (responder : Responder) (req : Request) (u : Unit)
    (hc : req.Cancel = some u) :
    runCancelable responder req .cancelWins
      = .ret none (some "request canceled") := by
  rw [runCancelable_some responder req .cancelWins u hc]
  rfl

theorem C1_cancel_wins_witness :
    (Request.mk (some ())).Cancel = some () ∧
    runCancelable (fun _ => RespBehavior.returns none none) ⟨some ()⟩
        Sched.cancelWins
      = ExecOutcome.ret none (some "request canceled") :=
  ⟨rfl, C1_cancel_wins (fun _ => RespBehavior.returns none none) ⟨some ()⟩ () rfl⟩

/-- C3: with a nil `req.Cancel` the responder is invoked synchronously and
its own `(response, error)` pair is returned unmodified; the outcome does not
depend on any interleaving, reflecting that no goroutines are spawned. -/
theorem C3_nil_cancel_passthrough (responder : Responder) (req : Request)
    (r : Option Response) (e : Option String) (sc sc' : Sched)
    (hc : req.Cancel = none) (hr : responder req = .returns r e) :
    runCancelable responder req sc = .ret r e ∧
    runCancelable responder req sc = runCancelable responder req sc' := by
  simp [runCancelable, hc, hr]

theorem C3_nil_cancel_passthrough_witness :
    (Request.mk none).Cancel = none ∧
    runCancelable (fun _ => RespBehavior.returns none (some "own error"))
        ⟨none⟩ Sched.cancelWins
      = ExecOutcome.ret none (some "own error") :=
  ⟨rfl,
    (C3_nil_cancel_passthrough (fun _ => RespBehavior.returns none (some "own error"))
      ⟨none⟩ none (some "own error") Sched.cancelWins Sched.cancelWins rfl rfl).1⟩

/-- C4: for every cancelable invocation and every interleaving, the invoker
performs exactly one receive on the capacity-one result channel, the channel
trace completes with exactly the first write (the race winner) delivered —
no duplicate and no missing result — and `runCancelable` returns exactly
that value. -/
theorem C4_exactly_one_receive (responder : Responder) (req : Request)
    (sc : Sched) (u : Unit) (hc : req.Cancel = some u) :
    ((resultchOps sc cancelResult (execResult (responder req))).filter
        ChanOp.isRecv).length = 1 ∧
    (∃ buf, chanRun 1 [] (resultchOps sc cancelResult (execResult (responder req)))
        = some (buf, [raceWinner sc (execResult (responder req))])) ∧
    runCancelable responder req sc
      = .ret (raceWinner sc (execResult (responder req))).response
          (raceWinner sc (execResult (responder req))).err := by
  refine ⟨?_, ?_, runCancelable_some responder req sc u hc⟩
  · cases sc <;> rfl
  · cases sc with
    | cancelWins => exact ⟨[execResult (responder req)], rfl⟩
    | execWinsStandDown => exact ⟨[], rfl⟩
    | execWinsCancelLate => exact ⟨[cancelResult], rfl⟩

theorem C4_exactly_one_receive_witness :
    (Request.mk (some ())).Cancel = some () ∧
    runCancelable (fun _ => RespBehavior.returns none none) ⟨some ()⟩
        Sched.execWinsStandDown
      = ExecOutcome.ret none none :=
  ⟨rfl,
    (C4_exactly_one_receive (fun _ => RespBehavior.returns none none)
      ⟨some ()⟩ Sched.execWinsStandDown () rfl).2.2⟩

/-- C5 as stated is false on the code: for a request with a nil cancellation
signal the responder is invoked synchronously with no deferred recover, so a
panicking responder panics `runCancelable`'s caller instead of resolving to a
`(nil, error)` pair. -/
theorem C5_nil_cancel_panic_counterexample :
    runCancelable (fun _ => RespBehavior.panics "boom") ⟨none⟩ Sched.cancelWins
      = ExecOutcome.panicked "boom" := rfl

/-- C5 (amended): when the cancellation signal is present, every failure path
of `runCancelable` resolves to a `(nil, error)` pair returned to the caller —
no path panics or blocks: cancellation yields `(nil, "request canceled")` and
a responder panic yields the recovered `(nil, "panic in responder: got %q v")`
when the execution task's write wins. When the signal is absent, a responder
panic propagates to the caller. -/
theorem C5_failure_paths (responder : Responder) (req : Request)
    (sc : Sched) (u : Unit) (hc : req.Cancel = some u) :
    (∀ w, runCancelable responder req sc ≠ .panicked w) ∧
    runCancelable responder req sc ≠ .blocked ∧
    (sc = .cancelWins →
      runCancelable responder req sc = .ret none (some "request canceled")) ∧
    (∀ v, responder req = .panics v → sc ≠ .cancelWins →
      runCancelable responder req sc
        = .ret none (some ("panic in responder: got " ++ goQuote v))) := by
  have h := runCancelable_some responder req sc u hc
  refine ⟨fun w => ?_, ?_, fun hsc => ?_, fun v hv hsc => ?_⟩
  · rw [h]; exact fun hw => ExecOutcome.noConfusion hw
  · rw [h]; exact fun hw => ExecOutcome.noConfusion hw
  · subst hsc; rw [h]; rfl
  · exact runCancelable_panic_caught responder req sc v u hc hv hsc

theorem C5_failure_paths_witness :
    (Request.mk (some ())).Cancel = some () ∧
    (∀ w, runCancelable (fun _ => RespBehavior.panics "boom") ⟨some ()⟩
        Sched.cancelWins ≠ ExecOutcome.panicked w) ∧
    runCancelable (fun _ => RespBehavior.panics "boom") ⟨some ()⟩
        Sched.cancelWins
      = ExecOutcome.ret none (some "request canceled") :=
  ⟨rfl,
    (C5_failure_paths (fun _ => RespBehavior.panics "boom") ⟨some ()⟩
      Sched.cancelWins () rfl).1,
    (C5_failure_paths (fun _ => RespBehavior.panics "boom") ⟨some ()⟩
      Sched.cancelWins () rfl).2.2.1 rfl⟩

/-- C6: in every cancelable invocation, the done channel carries exactly one
send (the invoker's unconditional stand-down signal) and its trace completes
without blocking; the result channel carries at most two sends — the winner's
and, when attempted, the loser's — its trace completes with the one consumed
receive, so neither write blocks the process, and the invocation itself never
blocks. -/
theorem C6_nonblocking_signals (responder : Responder) (req : Request)
    (sc : Sched) (u : Unit) (hc : req.Cancel = some u) :
    ((doneOps sc).filter ChanOp.isSend).length = 1 ∧
    (∃ b, chanRun 1 [] (doneOps sc) = some b) ∧
    ((resultchOps sc cancelResult (execResult (responder req))).filter
        ChanOp.isSend).length ≤ 2 ∧
    (∃ b, chanRun 1 [] (resultchOps sc cancelResult (execResult (responder req)))
        = some b) ∧
    runCancelable responder req sc ≠ .blocked := by
  refine ⟨?_, ?_, ?_, ?_, ?_⟩
  · cases sc <;> rfl
  · cases sc <;> exact ⟨_, rfl⟩
  · cases sc with
    | cancelWins => exact Nat.le_refl 2
    | execWinsStandDown => exact Nat.le_succ 1
    | execWinsCancelLate => exact Nat.le_refl 2
  · cases sc <;> exact ⟨_, rfl⟩
  · rw [runCancelable_some responder req sc u hc]
    exact fun hw => ExecOutcome.noConfusion hw

theorem C6_nonblocking_signals_witness :
    (Request.mk (some ())).Cancel = some () ∧
    ((doneOps Sched.cancelWins).filter ChanOp.isSend).length = 1 ∧
    runCancelable (fun _ => RespBehavior.returns none none) ⟨some ()⟩
        Sched.cancelWins ≠ ExecOutcome.blocked :=
  ⟨rfl,
    (C6_nonblocking_signals (fun _ => RespBehavior.returns none none)
      ⟨some ()⟩ Sched.cancelWins () rfl).1,
    (C6_nonblocking_signals (fun _ => RespBehavior.returns none none)
      ⟨some ()⟩ Sched.cancelWins () rfl).2.2.2.2⟩

/-- C7: the JSON and XML builders return a non-nil error exactly when the
encoder fails, as the pair `(nil, err)`; on encoder success they return a
response whose status code is the given status, whose body is the encoded
bytes, and whose Content-Type header is `application/json` respectively
`application/xml`, with nil error. -/
theorem C7_json_xml_builders {α : Type} (jsonMarshal xmlMarshal : α → Except String Bytes)
    (status : Int) (body : α) :
    (∀ err, jsonMarshal body = .error err →
      NewJsonResponse jsonMarshal status body = .error err) ∧
    (∀ encoded, jsonMarshal body = .ok encoded →
      ∃ resp, NewJsonResponse jsonMarshal status body = .ok resp ∧
        resp.StatusCode = status ∧
        resp.Body = NewRespBodyFromBytes encoded ∧
        headerGet resp.Header "Content-Type" = some "application/json") ∧
    (∀ err, xmlMarshal body = .error err →
      NewXmlResponse xmlMarshal status body = .error err) ∧
    (∀ encoded, xmlMarshal body = .ok encoded →
      ∃ resp, NewXmlResponse xmlMarshal status body = .ok resp ∧
        resp.StatusCode = status ∧
        resp.Body = NewRespBodyFromBytes encoded ∧
        headerGet resp.Header "Content-Type" = some "application/xml") := by
  refine ⟨fun err h => ?_, fun encoded h => ?_, fun err h => ?_, fun encoded h => ?_⟩
  · unfold NewJsonResponse; rw [h]
  · unfold NewJsonResponse; rw [h]; exact ⟨_, rfl, rfl, rfl, rfl⟩
  · unfold NewXmlResponse; rw [h]
  · unfold NewXmlResponse; rw [h]; exact ⟨_, rfl, rfl, rfl, rfl⟩

theorem C7_json_xml_builders_witness :
    ((fun _ => Except.ok ([] : Bytes)) : Unit → Except String Bytes) ()
      = Except.ok [] ∧
    ((fun _ => Except.error "no") : Unit → Except String Bytes) ()
      = Except.error "no" ∧
    (∃ resp, NewJsonResponse (fun _ => Except.ok ([] : Bytes)) 200 () = .ok resp ∧
      resp.StatusCode = 200 ∧
      resp.Body = NewRespBodyFromBytes [] ∧
      headerGet resp.Header "Content-Type" = some "application/json") ∧
    NewXmlResponse ((fun _ => Except.error "no") : Unit → Except String Bytes)
        200 () = .error "no" :=
  ⟨rfl, rfl,
    (C7_json_xml_builders (fun _ => Except.ok ([] : Bytes))
      (fun _ => Except.error "no") 200 ()).2.1 [] rfl,
    (C7_json_xml_builders (fun _ => Except.ok ([] : Bytes))
      (fun _ => Except.error "no") 200 ()).2.2.1 "no" rfl⟩

/-- Draining a fresh string body with a buffer longer than the data yields
exactly the data and leaves the body rewound to a fresh one: the first read
returns all bytes, the second hits `io.EOF` and `dummyReadCloser.Read`
seeks back to offset 0. -/
theorem readAll_twice (s : Bytes) :
    dummyReadCloser.readAll 2 (NewRespBodyFromString s) (s.length + 1)
      = (s, NewRespBodyFromString s) := by
  cases s with
  | nil => rfl
  | cons a as =>
      simp [NewRespBodyFromString, dummyReadCloser.readAll, dummyReadCloser.Read,
            ReadSeeker.Read, stringsReader.Read, ReadSeeker.Seek, stringsReader.Seek,
            List.take_of_length_le, Nat.le_succ]

/-- C8: reading the body produced by `NewRespBodyFromString` to exhaustion
and then reading it again yields the same byte sequence both times: on
reaching end-of-stream the body rewinds to the start instead of remaining
exhausted. -/
theorem C8_restartable_body (s : Bytes) :
    (dummyReadCloser.readAll 2 (NewRespBodyFromString s) (s.length + 1)).1 = s ∧
    (dummyReadCloser.readAll 2
        (dummyReadCloser.readAll 2 (NewRespBodyFromString s) (s.length + 1)).2
        (s.length + 1)).1 = s := by
  rw [readAll_twice s]
  exact ⟨rfl, by rw [readAll_twice s]⟩

/-- Unfolding of `SlowReader.readN` at a successor, with the read's
components written as projections. -/
theorem SlowReader.readN_succ (k : Nat) (sr : SlowReader) (bufLen : Nat) :
    SlowReader.readN (k + 1) sr bufLen
      = ((sr.Read bufLen).1
            ++ (SlowReader.readN k (sr.Read bufLen).2.2.1 bufLen).1,
         (SlowReader.readN k (sr.Read bufLen).2.2.1 bufLen).2.1,
         (sr.Read bufLen).2.2.2
            + (SlowReader.readN k (sr.Read bufLen).2.2.1 bufLen).2.2) := rfl

/-- A single `SlowReader.Read` transfers at most one byte. -/
theorem SlowReader.Read_length_le_one (sr : SlowReader) (plen : Nat) :
    (sr.Read plen).1.length ≤ 1 := by
  show ((sr.r.Read (min plen 1)).1).length ≤ 1
  rw [stringsReader.Read]
  split
  · exact Nat.zero_le 1
  · simp only [List.length_take]
    exact le_trans (Nat.min_le_left _ _) (Nat.min_le_right plen 1)

/-- A single `SlowReader.Read` preserves the configured delay. -/
theorem SlowReader.Read_delay (sr : SlowReader) (plen : Nat) :
    (sr.Read plen).2.2.1.delay = sr.delay := rfl

/-- Over `k` reads a `SlowReader` transfers at most `k` bytes and sleeps
exactly `k` times its per-read delay. -/
theorem SlowReader.readN_le (k : Nat) (sr : SlowReader) (bufLen : Nat) :
    (SlowReader.readN k sr bufLen).1.length ≤ k ∧
    (SlowReader.readN k sr bufLen).2.2 = k * sr.delay := by
  induction k generalizing sr with
  | zero => exact ⟨Nat.le_refl 0, (Nat.zero_mul sr.delay).symm⟩
  | succ k ih =>
      rw [SlowReader.readN_succ]
      have h1 := (ih (sr.Read bufLen).2.2.1).1
      have h2 := (ih (sr.Read bufLen).2.2.1).2
      rw [SlowReader.Read_delay] at h2
      constructor
      · rw [List.length_append]
        have h0 := SlowReader.Read_length_le_one sr bufLen
        omega
      · show (sr.Read bufLen).2.2.2 + (SlowReader.readN k (sr.Read bufLen).2.2.1 bufLen).2.2
            = (k + 1) * sr.delay
        rw [h2]
        show sr.delay + k * sr.delay = (k + 1) * sr.delay
        rw [Nat.succ_mul, Nat.add_comm]

/-- C9: with rate `N` bytes/second, `NewSlowReader` configures a delay of
`time.Second / N` nanoseconds; every `Read` with a non-empty buffer sleeps
exactly that delay and transfers at most one byte (it reads into a one-byte
slice), so `k` reads transfer at most `k` bytes, sleep `k` whole delay
intervals, and fully draining a body of given length takes at least that many
reads. -/
theorem C9_slow_reader (sr : SlowReader) (plen k : Nat) (hp : 1 ≤ plen)
    (r : stringsReader) (N : Nat) :
    (sr.Read plen).1.length ≤ 1 ∧
    (sr.Read plen).2.2.2 = sr.delay ∧
    (SlowReader.readN k sr plen).1.length ≤ k ∧
    (SlowReader.readN k sr plen).2.2 = k * sr.delay ∧
    ((SlowReader.readN k sr plen).1.length = sr.r.data.length →
      sr.r.data.length ≤ k) ∧
    (NewSlowReader r N).delay = timeSecond / N := by
  refine ⟨SlowReader.Read_length_le_one sr plen, rfl,
    (SlowReader.readN_le k sr plen).1, (SlowReader.readN_le k sr plen).2,
    fun h => ?_, rfl⟩
  rw [← h]
  exact (SlowReader.readN_le k sr plen).1

theorem C9_slow_reader_witness :
    (1 : Nat) ≤ 1 ∧
    (NewSlowReader ⟨[], 0⟩ 4096).delay = timeSecond / 4096 ∧
    (SlowReader.readN 3 ⟨244140, ⟨[], 0⟩⟩ 1).2.2 = 3 * 244140 :=
  ⟨Nat.le_refl 1,
    (C9_slow_reader ⟨244140, ⟨[], 0⟩⟩ 1 3 (Nat.le_refl 1) ⟨[], 0⟩ 4096).2.2.2.2.2,
    (C9_slow_reader ⟨244140, ⟨[], 0⟩⟩ 1 3 (Nat.le_refl 1) ⟨[], 0⟩ 4096).2.2.2.1⟩

/-- C10: `NewSlowStringResponder` ignores its delay parameter entirely — the
responder it returns is the same for any two delays — and the throttled body
it wraps is always paced at the hard-coded rate of 4096 bytes per second,
i.e. a per-read delay of `time.Second / 4096` nanoseconds. -/
theorem C10_delay_ignored (d d2 : Nat) (status : Int) (body : Bytes) :
    NewSlowStringResponder d status body = NewSlowStringResponder d2 status body ∧
    NewSlowRespBodyFromString body
      = ⟨.slow ⟨timeSecond / 4096, ⟨body, 0⟩⟩⟩ :=
  ⟨rfl, rfl⟩

end Httpmock
